import Mathlib

/-!
Verification of the SUSHI real-time audio core against its specification.

Each C++ function referenced by the claims is shallowly embedded as an
executable Lean definition.  Machine floats are modelled as rationals,
C++ `std::map`s as association lists, and per-channel/per-cc route tables
as Lean functions.  Code of the repository whose definition is not part
of the source tree (MIDI byte decoders/encoders, the event classes, the
sample-buffer primitives, external libraries) is modelled from the
specification; each such definition carries a doc comment starting with
`Modelled from the spec:`.
-/

namespace Sushi

/-! ## MIDI messages (library/midi_decoder.h is not in the source tree) -/

/-- Modelled from the spec: the MIDI message kinds the dispatcher decodes
(`midi::MessageType`). -/
inductive MessageType where
  | NOTE_OFF
  | NOTE_ON
  | POLY_KEY_PRESSURE
  | CONTROL_CHANGE
  | PROGRAM_CHANGE
  | CHANNEL_PRESSURE
  | PITCH_BEND
  | UNKNOWN
  deriving DecidableEq, Repr

/-- Modelled from the spec: `midi::MAX_VALUE`, the maximum 7-bit data value 127
(the spec scales CC values and velocities by `/ 127`). -/
def MAX_VALUE : Nat := 127

/-- Modelled from the spec: `midi::MidiChannel::OMNI`, the wildcard channel
index used as an extra slot after the 16 concrete channels. -/
def OMNI : Nat := 16

/-- Modelled from the spec: `midi::NoteOnMessage`, fields decoded from a
note-on frame. -/
structure NoteOnMessage where
  channel : Nat
  note : Nat
  velocity : Nat
  deriving DecidableEq, Repr

/-- Modelled from the spec: `midi::NoteOffMessage`. -/
structure NoteOffMessage where
  channel : Nat
  note : Nat
  velocity : Nat
  deriving DecidableEq, Repr

/-- Modelled from the spec: `midi::ControlChangeMessage`. -/
structure ControlChangeMessage where
  channel : Nat
  controller : Nat
  value : Nat
  deriving DecidableEq, Repr

/-- Modelled from the spec: `midi::decode_message_type` dispatches on the
status byte's high nibble (0x8 note off, 0x9 note on, 0xA poly pressure,
0xB control change, 0xC program change, 0xD channel pressure, 0xE pitch
bend). -/
def decode_message_type (data : List Nat) : MessageType :=
  match data.getD 0 0 / 16 with
  | 8 => .NOTE_OFF
  | 9 => .NOTE_ON
  | 10 => .POLY_KEY_PRESSURE
  | 11 => .CONTROL_CHANGE
  | 12 => .PROGRAM_CHANGE
  | 13 => .CHANNEL_PRESSURE
  | 14 => .PITCH_BEND
  | _ => .UNKNOWN

/-- Modelled from the spec: `midi::decode_note_on`; the channel is the status
byte's low nibble, the note and velocity are the two data bytes. -/
def decode_note_on (data : List Nat) : NoteOnMessage :=
  ⟨data.getD 0 0 % 16, data.getD 1 0, data.getD 2 0⟩

/-- Modelled from the spec: `midi::decode_note_off`. -/
def decode_note_off (data : List Nat) : NoteOffMessage :=
  ⟨data.getD 0 0 % 16, data.getD 1 0, data.getD 2 0⟩

/-- Modelled from the spec: `midi::decode_control_change`; the channel is the
status byte's low nibble, the controller number and value are the two data
bytes. -/
def decode_control_change (data : List Nat) : ControlChangeMessage :=
  ⟨data.getD 0 0 % 16, data.getD 1 0, data.getD 2 0⟩

/-! ## Non-RT events posted by the MIDI dispatcher
(library/event.h is not in the source tree; the shapes below follow the
constructor calls in `midi_dispatcher.cpp`). -/

/-- Modelled from the spec: `KeyboardEvent::Subtype`.  The dispatcher's
outbound `process` handles `NOTE_ON`, `NOTE_OFF` and `POLY_AFTERTOUCH` and
returns early on any other subtype. -/
inductive KbSubtype where
  | NOTE_ON
  | NOTE_OFF
  | POLY_AFTERTOUCH
  | OTHER
  deriving DecidableEq, Repr

/-- Modelled from the spec: `KeyboardEvent`.  The constructor used by
`midi_dispatcher.cpp` takes exactly a subtype, a target processor id, a
note number, a float velocity and a timestamp; it has no channel field. -/
structure KeyboardEvent where
  subtype : KbSubtype
  processor_id : Nat
  note : Nat
  velocity : ℚ
  timestamp : Int
  deriving DecidableEq, Repr

/-- Modelled from the spec: `ParameterChangeEvent::Subtype`. -/
inductive PcSubtype where
  | FLOAT_PARAMETER_CHANGE
  deriving DecidableEq, Repr

/-- Modelled from the spec: `ParameterChangeEvent` as constructed by
`make_param_change_event`: subtype, target processor, parameter id, float
value, timestamp. -/
structure ParameterChangeEvent where
  subtype : PcSubtype
  processor_id : Nat
  parameter_id : Nat
  value : ℚ
  timestamp : Int
  deriving DecidableEq, Repr

/-- Modelled from the spec: the non-RT `Event` hierarchy, restricted to the
variants the MIDI dispatcher constructs or inspects; `other` stands for
every event whose `type()` is not `KEYBOARD_EVENT`. -/
inductive Event where
  | keyboard (e : KeyboardEvent)
  | parameterChange (e : ParameterChangeEvent)
  | other
  deriving DecidableEq, Repr

/-- Modelled from the spec: `EventStatus` returned by event processing. -/
inductive EventStatus where
  | HANDLED_OK
  | NOT_HANDLED
  | ERROR
  deriving DecidableEq, Repr

/-! ## MIDI dispatcher (engine/midi_dispatcher.cpp) -/

/-- `InputConnection` from `midi_dispatcher.h` as used by the source:
target processor, parameter id, and the CC scaling range. -/
structure InputConnection where
  target : Nat
  parameter : Nat
  min_range : ℚ
  max_range : ℚ

/-- `OutputConnection` from `midi_dispatcher.h` as filled in by
`connect_track_to_output`. -/
structure OutputConnection where
  channel : Nat
  output : Nat
  min_range : ℚ
  max_range : ℚ
  cc_number : Nat

/-- `make_note_on_event` (midi_dispatcher.cpp:11): velocity is scaled by
`1/127`; the message's channel is not passed on. -/
def make_note_on_event (c : InputConnection) (msg : NoteOnMessage) (timestamp : Int) : Event :=
  .keyboard ⟨.NOTE_ON, c.target, msg.note, (msg.velocity : ℚ) / (MAX_VALUE : ℚ), timestamp⟩

/-- `make_note_off_event` (midi_dispatcher.cpp:19). -/
def make_note_off_event (c : InputConnection) (msg : NoteOffMessage) (timestamp : Int) : Event :=
  .keyboard ⟨.NOTE_OFF, c.target, msg.note, (msg.velocity : ℚ) / (MAX_VALUE : ℚ), timestamp⟩

/-- `make_param_change_event` (midi_dispatcher.cpp:27): the 7-bit value is
scaled linearly into `[min_range, max_range]`. -/
def make_param_change_event (c : InputConnection) (msg : ControlChangeMessage) (timestamp : Int) : Event :=
  .parameterChange ⟨.FLOAT_PARAMETER_CHANGE, c.target, c.parameter,
    (msg.value : ℚ) / (MAX_VALUE : ℚ) * (c.max_range - c.min_range) + c.min_range, timestamp⟩

/-- The dispatcher's routing state.  The outer `std::map`s keyed by input
port (respectively by processor id for the outbound table) are association
lists; the inner fixed-size arrays indexed by cc number and channel are
functions. -/
structure MidiDispatcher where
  cc_routes : List (Nat × (Nat → Nat → List InputConnection))
  kb_routes_in : List (Nat × (Nat → List InputConnection))
  kb_routes_out : List (Nat × List OutputConnection)

/-- `MidiDispatcher::process_midi` (midi_dispatcher.cpp:139), returning the
list of events posted to the event dispatcher, in posting order. -/
def process_midi (d : MidiDispatcher) (input : Nat) (data : List Nat) (timestamp : Int) :
    List Event :=
  match decode_message_type data with
  | .CONTROL_CHANGE =>
    let msg := decode_control_change data
    match d.cc_routes.lookup input with
    | some table =>
        (table msg.controller OMNI).map (fun c => make_param_change_event c msg timestamp) ++
        (table msg.controller msg.channel).map (fun c => make_param_change_event c msg timestamp)
    | none => []
  | .NOTE_ON =>
    let msg := decode_note_on data
    match d.kb_routes_in.lookup input with
    | some table =>
        (table OMNI).map (fun c => make_note_on_event c msg timestamp) ++
        (table msg.channel).map (fun c => make_note_on_event c msg timestamp)
    | none => []
  | .NOTE_OFF =>
    let msg := decode_note_off data
    match d.kb_routes_in.lookup input with
    | some table =>
        (table OMNI).map (fun c => make_note_off_event c msg timestamp) ++
        (table msg.channel).map (fun c => make_note_off_event c msg timestamp)
    | none => []
  | _ => []

/-- `MidiDispatcher::clear_connections` (midi_dispatcher.cpp:133): clears the
CC table and the inbound keyboard table only. -/
def clear_connections (d : MidiDispatcher) : MidiDispatcher :=
  { d with cc_routes := [], kb_routes_in := [] }

/-- Modelled from the spec: `midi::encode_note_on` — status byte `0x90 +
channel`, note, velocity scaled back to `0..127` and rounded, in a 4-byte
`MidiDataByte`. -/
def encode_note_on (channel note : Nat) (velocity : ℚ) : List Nat :=
  [144 + channel, note, (Int.floor (velocity * (MAX_VALUE : ℚ) + 1/2)).toNat, 0]

/-- Modelled from the spec: `midi::encode_note_off` — status byte `0x80 +
channel`. -/
def encode_note_off (channel note : Nat) (velocity : ℚ) : List Nat :=
  [128 + channel, note, (Int.floor (velocity * (MAX_VALUE : ℚ) + 1/2)).toNat, 0]

/-- Modelled from the spec: `midi::encode_poly_key_pressure` — status byte
`0xA0 + channel`. -/
def encode_poly_key_pressure (channel note : Nat) (pressure : ℚ) : List Nat :=
  [160 + channel, note, (Int.floor (pressure * (MAX_VALUE : ℚ) + 1/2)).toNat, 0]

/-- The loop body of `MidiDispatcher::process` (midi_dispatcher.cpp:222):
for each outbound connection encode the keyboard event and send it to the
frontend; a subtype other than note on/off/poly-aftertouch returns from the
whole function at once, so nothing further is sent. -/
def send_loop (cons : List OutputConnection) (e : KeyboardEvent) :
    List (Nat × List Nat × Int) :=
  match cons with
  | [] => []
  | c :: rest =>
    match e.subtype with
    | .NOTE_ON => (c.output, encode_note_on c.channel e.note e.velocity, e.timestamp) :: send_loop rest e
    | .NOTE_OFF => (c.output, encode_note_off c.channel e.note e.velocity, e.timestamp) :: send_loop rest e
    | .POLY_AFTERTOUCH => (c.output, encode_poly_key_pressure c.channel e.note e.velocity, e.timestamp) :: send_loop rest e
    | .OTHER => []

/-- `MidiDispatcher::process` (midi_dispatcher.cpp:214): returns the MIDI
frames sent to the frontend together with the function's return status. -/
def process (d : MidiDispatcher) (event : Event) :
    List (Nat × List Nat × Int) × EventStatus :=
  match event with
  | .keyboard e =>
    match d.kb_routes_out.lookup e.processor_id with
    | some cons => (send_loop cons e, .NOT_HANDLED)
    | none => ([], .NOT_HANDLED)
  | _ => ([], .NOT_HANDLED)

end Sushi

namespace Sushi

/-! ## Claims C1, C2, C3, C9, C10 — MIDI dispatcher -/

/-- **C1.** For every inbound control-change frame on a port with a
registered CC route table, `process_midi` posts exactly one float
parameter-change event per matching route (first the OMNI list, then the
message channel's list), whose value is `v/127 * (max - min) + min`; in
particular with `min = 0`, `max = 1`, `v = 64` the value is `64/127`. -/
theorem claim_C1_cc_to_param_scaling (d : MidiDispatcher) (input : Nat) (data : List Nat)
    (timestamp : Int) (table : Nat → Nat → List InputConnection)
    (hty : decode_message_type data = .CONTROL_CHANGE)
    (hfind : d.cc_routes.lookup input = some table) :
    (process_midi d input data timestamp =
      ((table (decode_control_change data).controller OMNI ++
        table (decode_control_change data).controller (decode_control_change data).channel).map
        (fun c => make_param_change_event c (decode_control_change data) timestamp))) ∧
    (∀ c : InputConnection, ∀ msg : ControlChangeMessage, ∀ t : Int,
      make_param_change_event c msg t =
        .parameterChange ⟨.FLOAT_PARAMETER_CHANGE, c.target, c.parameter,
          (msg.value : ℚ) / 127 * (c.max_range - c.min_range) + c.min_range, t⟩) ∧
    (∀ pid par ch t, make_param_change_event ⟨pid, par, 0, 1⟩ ⟨ch, 7, 64⟩ t =
      .parameterChange ⟨.FLOAT_PARAMETER_CHANGE, pid, par, 64/127, t⟩) := by
  refine ⟨?_, ?_, ?_⟩
  · simp only [process_midi, hty, hfind, List.map_append]
  · intro c msg t
    rfl
  · intro pid par ch t
    simp only [make_param_change_event, MAX_VALUE]
    norm_num

/-- Witness for C1: the spec's scenario 3 — a CC frame `{0xB0, 7, 64}` on a
port whose table has one OMNI route with range `[0, 1]` yields exactly one
float parameter-change event with value `64/127`. -/
theorem claim_C1_witness :
    process_midi
      ⟨[(0, fun cc ch => if cc = 7 ∧ ch = OMNI then [⟨1, 2, 0, 1⟩] else [])], [], []⟩
      0 [176, 7, 64] 5 =
      [.parameterChange ⟨.FLOAT_PARAMETER_CHANGE, 1, 2, 64/127, 5⟩] := by
  have h := claim_C1_cc_to_param_scaling
      ⟨[(0, fun cc ch => if cc = 7 ∧ ch = OMNI then [⟨1, 2, 0, 1⟩] else [])], [], []⟩
      0 [176, 7, 64] 5
      (fun cc ch => if cc = 7 ∧ ch = OMNI then [⟨1, 2, 0, 1⟩] else []) rfl rfl
  rw [h.1]
  norm_num [decode_control_change, make_param_change_event, OMNI, MAX_VALUE]

/-- **C2, counterexample.** The claim says the keyboard RT event carries a
channel field equal to the decoded MIDI channel.  The `KeyboardEvent`
constructed by `make_note_on_event` has no channel at all: two note-on
frames identical except for their channel nibble (channels 3 and 5), both
matching one OMNI route, produce exactly the same single event — so no
event field can equal the decoded channel, which differs between them. -/
theorem claim_C2_counterexample :
    process_midi ⟨[], [(0, fun ch => if ch = OMNI then [⟨9, 0, 0, 0⟩] else [])], []⟩
        0 [147, 60, 100] 0 =
      process_midi ⟨[], [(0, fun ch => if ch = OMNI then [⟨9, 0, 0, 0⟩] else [])], []⟩
        0 [149, 60, 100] 0 ∧
    process_midi ⟨[], [(0, fun ch => if ch = OMNI then [⟨9, 0, 0, 0⟩] else [])], []⟩
        0 [147, 60, 100] 0 =
      [.keyboard ⟨.NOTE_ON, 9, 60, 100/127, 0⟩] ∧
    (decode_note_on [147, 60, 100]).channel ≠ (decode_note_on [149, 60, 100]).channel := by
  refine ⟨?_, ?_, by decide⟩ <;>
    norm_num [process_midi, decode_message_type, decode_note_on, make_note_on_event,
      OMNI, MAX_VALUE]

/-- **C2 (amended).** For every inbound note-on frame delivered to
`process_midi` on a port with a registered keyboard route table, each
matching route yields one keyboard event with subtype `NOTE_ON`, the
route's target, `note` equal to the decoded note and `velocity` equal to
the decoded velocity divided by 127 (`100/127` for MIDI velocity 100); the
decoded channel only selects which route list is consulted, and is not a
field of the event. -/
theorem claim_C2_note_on_fields (d : MidiDispatcher) (input : Nat) (data : List Nat)
    (timestamp : Int) (table : Nat → List InputConnection)
    (hty : decode_message_type data = .NOTE_ON)
    (hfind : d.kb_routes_in.lookup input = some table) :
    (process_midi d input data timestamp =
      ((table OMNI ++ table (decode_note_on data).channel).map
        (fun c => make_note_on_event c (decode_note_on data) timestamp))) ∧
    (∀ c : InputConnection, ∀ msg : NoteOnMessage, ∀ t : Int,
      make_note_on_event c msg t =
        .keyboard ⟨.NOTE_ON, c.target, msg.note, (msg.velocity : ℚ) / 127, t⟩) ∧
    (∀ c : InputConnection, ∀ ch note : Nat, ∀ t : Int,
      make_note_on_event c ⟨ch, note, 100⟩ t =
        .keyboard ⟨.NOTE_ON, c.target, note, 100/127, t⟩) := by
  refine ⟨?_, ?_, ?_⟩
  · simp only [process_midi, hty, hfind, List.map_append]
  · intro c msg t
    rfl
  · intro c ch note t
    rfl

/-- Witness for C2 (amended): the spec's scenario 4 — note-on
`{channel = 3, note = 60, velocity = 100}` on a keyboard route to
processor 9 produces one keyboard event with `note = 60`,
`velocity = 100/127`, subtype `NOTE_ON`. -/
theorem claim_C2_witness :
    process_midi ⟨[], [(0, fun ch => if ch = OMNI then [⟨9, 0, 0, 0⟩] else [])], []⟩
        0 [147, 60, 100] 7 =
      [.keyboard ⟨.NOTE_ON, 9, 60, 100/127, 7⟩] := by
  have h := claim_C2_note_on_fields
      ⟨[], [(0, fun ch => if ch = OMNI then [⟨9, 0, 0, 0⟩] else [])], []⟩
      0 [147, 60, 100] 7 (fun ch => if ch = OMNI then [⟨9, 0, 0, 0⟩] else []) rfl rfl
  rw [h.1]
  norm_num [decode_note_on, make_note_on_event, OMNI, MAX_VALUE]

/-- **C3.** For note-on, note-off and control-change frames alike,
`process_midi` posts first one event per route in the OMNI list and then
one event per route in the list of the message's channel, in registration
(list) order; the posted list is literally the concatenation of the two
mapped lists, so a connection present in both lists yields two events and
the total count is the sum of the two lists' lengths. -/
theorem claim_C3_omni_then_channel (d : MidiDispatcher) (input : Nat) (data : List Nat)
    (timestamp : Int) :
    (∀ table, decode_message_type data = .NOTE_ON →
      d.kb_routes_in.lookup input = some table →
      process_midi d input data timestamp =
        (table OMNI).map (fun c => make_note_on_event c (decode_note_on data) timestamp) ++
        (table (decode_note_on data).channel).map
          (fun c => make_note_on_event c (decode_note_on data) timestamp) ∧
      (process_midi d input data timestamp).length =
        (table OMNI).length + (table (decode_note_on data).channel).length) ∧
    (∀ table, decode_message_type data = .NOTE_OFF →
      d.kb_routes_in.lookup input = some table →
      process_midi d input data timestamp =
        (table OMNI).map (fun c => make_note_off_event c (decode_note_off data) timestamp) ++
        (table (decode_note_off data).channel).map
          (fun c => make_note_off_event c (decode_note_off data) timestamp) ∧
      (process_midi d input data timestamp).length =
        (table OMNI).length + (table (decode_note_off data).channel).length) ∧
    (∀ table, decode_message_type data = .CONTROL_CHANGE →
      d.cc_routes.lookup input = some table →
      process_midi d input data timestamp =
        (table (decode_control_change data).controller OMNI).map
          (fun c => make_param_change_event c (decode_control_change data) timestamp) ++
        (table (decode_control_change data).controller (decode_control_change data).channel).map
          (fun c => make_param_change_event c (decode_control_change data) timestamp) ∧
      (process_midi d input data timestamp).length =
        (table (decode_control_change data).controller OMNI).length +
          (table (decode_control_change data).controller (decode_control_change data).channel).length) := by
  refine ⟨?_, ?_, ?_⟩ <;> intro table hty hfind <;>
    constructor <;> simp [process_midi, hty, hfind]

/-- Witness for C3: a route table whose OMNI list and channel-3 list both
hold the same connection receives, for a note-on on channel 3, two events
— the OMNI copy first — with no deduplication. -/
theorem claim_C3_witness :
    process_midi
      ⟨[], [(0, fun ch => if ch = OMNI ∨ ch = 3 then [⟨9, 0, 0, 0⟩] else [])], []⟩
      0 [147, 60, 100] 0 =
      [.keyboard ⟨.NOTE_ON, 9, 60, 100/127, 0⟩, .keyboard ⟨.NOTE_ON, 9, 60, 100/127, 0⟩] := by
  have h := (claim_C3_omni_then_channel
      ⟨[], [(0, fun ch => if ch = OMNI ∨ ch = 3 then [⟨9, 0, 0, 0⟩] else [])], []⟩
      0 [147, 60, 100] 0).1
      (fun ch => if ch = OMNI ∨ ch = 3 then [⟨9, 0, 0, 0⟩] else []) rfl rfl
  rw [h.1]
  norm_num [decode_note_on, make_note_on_event, OMNI, MAX_VALUE]

/-! ## Vst2xWrapper::init (library/vst2x/vst2x_wrapper.cpp) -/

/-- `ProcessorReturnCode` from the processor contract. -/
inductive ProcessorReturnCode where
  | OK
  | SHARED_LIBRARY_OPENING_ERROR
  | PLUGIN_ENTRY_POINT_NOT_FOUND
  | PLUGIN_LOAD_ERROR
  | PLUGIN_INIT_ERROR
  | PARAMETER_ERROR
  | PARAMETER_NOT_FOUND
  | UNSUPPORTED_OPERATION
  | ERROR
  deriving DecidableEq, Repr

/-- Modelled from the spec: `kEffectMagic`, the magic number a native-callback
plugin's entry struct must carry. -/
def kEffectMagic : Int := 1450406992

/-- Modelled from the spec: the fields of the entry-point struct (`AEffect`)
that `init` reads. -/
structure AEffect where
  magic : Int
  numParams : Nat
  numInputs : Nat
  numOutputs : Nat
  numPrograms : Nat

/-- The environment `Vst2xWrapper::init` interacts with: whether the shared
library loads (`PluginLoader::get_library_handle_for_plugin`), whether the
entry point is found and what struct it returns (`PluginLoader::load_plugin`),
and whether registering the parameter with a given index succeeds
(`register_parameter`). -/
structure Vst2Env where
  library_handle : Option Unit
  plugin_handle : Option AEffect
  param_register_ok : Nat → Bool

/-- The `while (param_inserted_ok && idx < numParams)` loop of
`Vst2xWrapper::_register_parameters` (vst2x_wrapper.cpp:275), starting at
index `idx` with `remaining` parameters left: stops at the first failing
registration. -/
def register_params_from (ok : Nat → Bool) : Nat → Nat → Bool
  | _, 0 => true
  | idx, remaining + 1 =>
    if ok idx then register_params_from ok (idx + 1) remaining else false

/-- `Vst2xWrapper::_register_parameters` (vst2x_wrapper.cpp:275). -/
def register_parameters (eff : AEffect) (env : Vst2Env) : Bool :=
  register_params_from env.param_register_ok 0 eff.numParams

/-- `Vst2xWrapper::init` (vst2x_wrapper.cpp:48), returning the status code
and whether `_cleanup()` ran before returning. -/
def vst2x_init (env : Vst2Env) : ProcessorReturnCode × Bool :=
  match env.library_handle with
  | none => (.SHARED_LIBRARY_OPENING_ERROR, true)
  | some _ =>
    match env.plugin_handle with
    | none => (.PLUGIN_ENTRY_POINT_NOT_FOUND, true)
    | some eff =>
      if eff.magic ≠ kEffectMagic then (.PLUGIN_LOAD_ERROR, true)
      else if register_parameters eff env = false then (.PARAMETER_ERROR, true)
      else (.OK, false)

theorem register_params_from_eq_true_iff (ok : Nat → Bool) (idx n : Nat) :
    register_params_from ok idx n = true ↔ ∀ j < n, ok (idx + j) = true := by
  induction n generalizing idx with
  | zero => simp [register_params_from]
  | succ m ih =>
    simp only [register_params_from]
    by_cases h : ok idx = true
    · rw [if_pos h, ih]
      constructor
      · intro hall j hj
        cases j with
        | zero => simpa using h
        | succ k =>
          have := hall k (by omega)
          simpa [Nat.add_comm, Nat.add_left_comm, Nat.add_assoc] using this
      · intro hall j hj
        have := hall (j + 1) (by omega)
        simpa [Nat.add_comm, Nat.add_left_comm, Nat.add_assoc] using this
    · rw [if_neg h]
      simp only [Bool.false_eq_true, false_iff]
      intro hall
      exact h (by simpa using hall 0 (by omega))

/-- **C4.** `Vst2xWrapper::init` returns `SHARED_LIBRARY_OPENING_ERROR`
exactly when the shared library fails to load, `PLUGIN_ENTRY_POINT_NOT_FOUND`
exactly when the library loads but the entry point is missing,
`PLUGIN_LOAD_ERROR` exactly when the entry struct's magic number differs
from the expected magic, `PARAMETER_ERROR` exactly when some parameter
fails to register (everything earlier having succeeded), and `OK`
otherwise; `_cleanup()` runs exactly on the failure paths. -/
theorem claim_C4_vst2x_init_statuses (env : Vst2Env) :
    ((vst2x_init env).1 = .SHARED_LIBRARY_OPENING_ERROR ↔ env.library_handle = none) ∧
    ((vst2x_init env).1 = .PLUGIN_ENTRY_POINT_NOT_FOUND ↔
      env.library_handle ≠ none ∧ env.plugin_handle = none) ∧
    ((vst2x_init env).1 = .PLUGIN_LOAD_ERROR ↔
      env.library_handle ≠ none ∧
        ∃ eff, env.plugin_handle = some eff ∧ eff.magic ≠ kEffectMagic) ∧
    ((vst2x_init env).1 = .PARAMETER_ERROR ↔
      env.library_handle ≠ none ∧
        ∃ eff, env.plugin_handle = some eff ∧ eff.magic = kEffectMagic ∧
          ∃ i < eff.numParams, env.param_register_ok i = false) ∧
    ((vst2x_init env).1 = .OK ↔
      env.library_handle ≠ none ∧
        ∃ eff, env.plugin_handle = some eff ∧ eff.magic = kEffectMagic ∧
          ∀ i < eff.numParams, env.param_register_ok i = true) ∧
    ((vst2x_init env).2 = true ↔ (vst2x_init env).1 ≠ .OK) := by
  obtain ⟨lib, plug, pok⟩ := env
  cases lib with
  | none =>
    have he : vst2x_init ⟨none, plug, pok⟩ = (.SHARED_LIBRARY_OPENING_ERROR, true) := rfl
    simp [he]
  | some u =>
    cases plug with
    | none =>
      have he : vst2x_init ⟨some u, none, pok⟩ = (.PLUGIN_ENTRY_POINT_NOT_FOUND, true) := rfl
      simp [he]
    | some eff =>
      by_cases hm : eff.magic = kEffectMagic
      · by_cases hreg : register_params_from pok 0 eff.numParams = true
        · have hall : ∀ j < eff.numParams, pok j = true := by
            have h0 := (register_params_from_eq_true_iff pok 0 eff.numParams).1 hreg
            intro j hj
            simpa using h0 j hj
          have he : vst2x_init ⟨some u, some eff, pok⟩ = (.OK, false) := by
            simp [vst2x_init, hm, register_parameters, hreg]
          refine ⟨by simp [he], by simp [he], by simp [he, hm], ?_, ?_, by simp [he]⟩
          · simp only [he, reduceCtorEq, false_iff]
            rintro ⟨-, eff2, heq, -, i, hi, hfail⟩
            obtain rfl : eff = eff2 := by injection heq
            have := hall i hi
            simp [this] at hfail
          · simp only [he, true_iff]
            exact ⟨by simp, eff, rfl, hm, fun i hi => hall i hi⟩
        · have hfail : register_params_from pok 0 eff.numParams = false := by
            simpa using hreg
          have hex : ∃ i < eff.numParams, pok i = false := by
            by_contra hno
            push_neg at hno
            have hall : ∀ j < eff.numParams, pok j = true := by
              intro j hj
              have := hno j hj
              revert this
              cases pok j <;> simp
            exact hreg ((register_params_from_eq_true_iff pok 0 eff.numParams).2
              (fun j hj => by simpa using hall j hj))
          have he : vst2x_init ⟨some u, some eff, pok⟩ = (.PARAMETER_ERROR, true) := by
            simp [vst2x_init, hm, register_parameters, hfail]
          refine ⟨by simp [he], by simp [he], by simp [he, hm], ?_, ?_, by simp [he]⟩
          · simp only [he, true_iff]
            exact ⟨by simp, eff, rfl, hm, hex⟩
          · simp only [he, reduceCtorEq, false_iff]
            rintro ⟨-, eff2, heq, -, hall⟩
            obtain rfl : eff = eff2 := by injection heq
            obtain ⟨i, hi, hf⟩ := hex
            have := hall i hi
            simp [this] at hf
      · have he : vst2x_init ⟨some u, some eff, pok⟩ = (.PLUGIN_LOAD_ERROR, true) := by
          simp [vst2x_init, hm]
        refine ⟨by simp [he], by simp [he], ?_, by simp [he, hm], by simp [he, hm], by simp [he]⟩
        simp only [he, true_iff]
        exact ⟨by simp, eff, rfl, hm⟩

/-! ## Lv2Wrapper::process_audio pause handling (library/lv2/lv2_wrapper.cpp) -/

/-- The LV2 wrapper's `PlayState` machine. -/
inductive PlayState where
  | RUNNING
  | PAUSE_REQUESTED
  | PAUSED
  deriving DecidableEq, Repr

/-- Modelled from the spec: the RT events the LV2 wrapper queues (note
on/off/aftertouch with channel, note and a float value). -/
inductive RtEvent where
  | noteOn (channel note : Nat) (velocity : ℚ)
  | noteOff (channel note : Nat) (velocity : ℚ)
  | noteAftertouch (channel note : Nat) (value : ℚ)
  deriving DecidableEq, Repr

/-- The LV2 wrapper state that `process_audio` reads and writes: the bypass
flag, the model's play state, the incoming RT event queue, and whether the
`paused` semaphore has been notified. -/
structure Lv2State where
  bypassed : Bool
  play_state : PlayState
  incoming_event_queue : List RtEvent
  paused_notified : Bool
  deriving DecidableEq, Repr

/-- What a call to `Lv2Wrapper::process_audio` does to the output buffer:
write the bypass mapping of the input, write the plugin's processed audio,
or return without touching the buffer at all. -/
inductive Lv2AudioOut where
  | bypassOut
  | pluginOut
  | untouched
  deriving DecidableEq, Repr

/-- `Lv2Wrapper::process_audio` (lv2_wrapper.cpp:500), as a transformer of
the wrapper state paired with its effect on the output buffer.  When
bypassed it takes the bypass path and flushes the queue
(`_flush_event_queue`, lv2_wrapper.cpp:791).  Otherwise, on
`PAUSE_REQUESTED` it sets the state to `PAUSED`, notifies the `paused`
semaphore and falls through to normal processing (the `break` of the
switch), which drains the queue into the plugin's event buffer; on
`PAUSED` it returns immediately, leaving queue and buffer untouched; on
`RUNNING` it processes normally. -/
def lv2_process_audio (s : Lv2State) : Lv2State × Lv2AudioOut :=
  if s.bypassed then
    ({ s with incoming_event_queue := [] }, .bypassOut)
  else
    match s.play_state with
    | .PAUSE_REQUESTED =>
      ({ s with play_state := .PAUSED, paused_notified := true,
                incoming_event_queue := [] }, .pluginOut)
    | .PAUSED => (s, .untouched)
    | .RUNNING => ({ s with incoming_event_queue := [] }, .pluginOut)

/-- **C5, counterexample.** With the wrapper not bypassed, in state `PAUSED`
and one pending incoming event, `process_audio` returns immediately: the
pending event is *not* dropped and the output buffer is *not* written with
silence via the bypass path — contradicting the claim that while `PAUSED`
events are dropped and silence is produced. -/
theorem claim_C5_counterexample :
    lv2_process_audio ⟨false, .PAUSED, [RtEvent.noteOn 0 60 1], false⟩ =
      (⟨false, .PAUSED, [RtEvent.noteOn 0 60 1], false⟩, .untouched) ∧
    (lv2_process_audio ⟨false, .PAUSED, [RtEvent.noteOn 0 60 1], false⟩).1.incoming_event_queue ≠ [] ∧
    (lv2_process_audio ⟨false, .PAUSED, [RtEvent.noteOn 0 60 1], false⟩).2 ≠ .bypassOut := by
  refine ⟨rfl, ?_, ?_⟩ <;> decide

/-- **C5 (amended).** When the wrapper is not bypassed: a call in state
`PAUSE_REQUESTED` transitions it to `PAUSED`, notifies the `paused`
semaphore, and still processes the block through the plugin (draining the
event queue into the plugin); a call in state `PAUSED` returns immediately,
leaving the pending events and the output buffer untouched.  Events are
flushed and the output produced via the bypass path only when the wrapper
is bypassed. -/
theorem claim_C5_pause_states (s : Lv2State) :
    (s.bypassed = false → s.play_state = .PAUSE_REQUESTED →
      (lv2_process_audio s).1.play_state = .PAUSED ∧
      (lv2_process_audio s).1.paused_notified = true ∧
      (lv2_process_audio s).2 = .pluginOut) ∧
    (s.bypassed = false → s.play_state = .PAUSED →
      lv2_process_audio s = (s, .untouched)) ∧
    (s.bypassed = true →
      (lv2_process_audio s).1.incoming_event_queue = [] ∧
      (lv2_process_audio s).2 = .bypassOut) := by
  obtain ⟨b, ps, q, n⟩ := s
  refine ⟨?_, ?_, ?_⟩ <;> intro hb
  · intro hps
    subst hb hps
    exact ⟨rfl, rfl, rfl⟩
  · intro hps
    subst hb hps
    rfl
  · subst hb
    exact ⟨rfl, rfl⟩

/-- Witness for C5 (amended): concrete calls in each of the three
configurations. -/
theorem claim_C5_witness :
    ((lv2_process_audio ⟨false, .PAUSE_REQUESTED, [RtEvent.noteOn 0 60 1], false⟩).1.play_state
        = .PAUSED ∧
      (lv2_process_audio ⟨false, .PAUSE_REQUESTED, [RtEvent.noteOn 0 60 1], false⟩).1.paused_notified
        = true ∧
      (lv2_process_audio ⟨false, .PAUSE_REQUESTED, [RtEvent.noteOn 0 60 1], false⟩).2
        = .pluginOut) ∧
    lv2_process_audio ⟨false, .PAUSED, [], true⟩ = (⟨false, .PAUSED, [], true⟩, .untouched) ∧
    ((lv2_process_audio ⟨true, .RUNNING, [RtEvent.noteOff 1 2 0], false⟩).1.incoming_event_queue
        = [] ∧
      (lv2_process_audio ⟨true, .RUNNING, [RtEvent.noteOff 1 2 0], false⟩).2 = .bypassOut) :=
  ⟨(claim_C5_pause_states ⟨false, .PAUSE_REQUESTED, [RtEvent.noteOn 0 60 1], false⟩).1 rfl rfl,
   (claim_C5_pause_states ⟨false, .PAUSED, [], true⟩).2.1 rfl rfl,
   (claim_C5_pause_states ⟨true, .RUNNING, [RtEvent.noteOff 1 2 0], false⟩).2.2 rfl⟩

/-! ## LV2 worker response ring (library/lv2/lv2_worker.cpp)
The zix byte ring is modelled as an unbounded byte list (overflow handling
lives in the external zix library). -/

/-- Little-endian serialisation of the 4-byte `uint32_t` size header that
`lv2_worker_respond` writes in front of each response. -/
def encodeLE32 (n : Nat) : List Nat :=
  [n % 256, n / 256 % 256, n / 256 ^ 2 % 256, n / 256 ^ 3 % 256]

/-- Little-endian deserialisation of the 4-byte size header read back by
`lv2_worker_emit_responses`. -/
def decodeLE32 (bs : List Nat) : Nat :=
  bs.getD 0 0 + 256 * bs.getD 1 0 + 256 ^ 2 * bs.getD 2 0 + 256 ^ 3 * bs.getD 3 0

/-- `lv2_worker_respond` (lv2_worker.cpp:26): appends the 4-byte size header
and then `size` bytes of the data onto the response ring. -/
def lv2_worker_respond (ring : List Nat) (size : Nat) (data : List Nat) : List Nat :=
  ring ++ encodeLE32 size ++ data.take size

/-- `lv2_worker_emit_responses` (lv2_worker.cpp:139): while read space
remains, read a size header and that many bytes and call `work_response`
with them; the result is the ordered list of `work_response` calls
`(size, bytes)`. -/
def lv2_worker_emit_responses (ring : List Nat) : List (Nat × List Nat) :=
  if h : ring = [] then []
  else
    let size := decodeLE32 (ring.take 4)
    let rest := ring.drop 4
    (size, rest.take size) :: lv2_worker_emit_responses (rest.drop size)
termination_by ring.length
decreasing_by
  have hlen : 0 < ring.length := List.length_pos.2 h
  simp only [List.length_drop]
  omega

theorem decodeLE32_encodeLE32 (n : Nat) (hn : n < 2 ^ 32) :
    decodeLE32 (encodeLE32 n) = n := by
  show n % 256 + 256 * (n / 256 % 256) + 256 ^ 2 * (n / 256 ^ 2 % 256) +
      256 ^ 3 * (n / 256 ^ 3 % 256) = n
  omega

theorem encodeLE32_length (n : Nat) : (encodeLE32 n).length = 4 := rfl

/-- **C6.** Pushing responses `(size₁, data₁), …, (sizeₖ, dataₖ)` onto an
empty response ring via `lv2_worker_respond` and then draining it with
`lv2_worker_emit_responses` delivers exactly the same sizes and bytes to
`work_response`, in push (FIFO) order. -/
theorem claim_C6_worker_fifo (resps : List (Nat × List Nat))
    (h : ∀ p ∈ resps, p.2.length = p.1 ∧ p.1 < 2 ^ 32) :
    lv2_worker_emit_responses
      (resps.foldl (fun ring p => lv2_worker_respond ring p.1 p.2) []) = resps := by
  have hfold : ∀ (rs : List (Nat × List Nat)) (r : List Nat),
      rs.foldl (fun ring p => lv2_worker_respond ring p.1 p.2) r =
        r ++ (rs.map (fun p => encodeLE32 p.1 ++ p.2.take p.1)).flatten := by
    intro rs
    induction rs with
    | nil => intro r; simp
    | cons p rest ih =>
      intro r
      simp only [List.foldl_cons, List.map_cons, List.flatten_cons]
      rw [ih]
      simp [lv2_worker_respond]
  rw [hfold]
  simp only [List.nil_append]
  induction resps with
  | nil => simp [lv2_worker_emit_responses]
  | cons p rest ih =>
    obtain ⟨hp, hrest⟩ : (p.2.length = p.1 ∧ p.1 < 2 ^ 32) ∧
        ∀ q ∈ rest, q.2.length = q.1 ∧ q.1 < 2 ^ 32 := by
      constructor
      · exact h p (List.mem_cons_self p rest)
      · intro q hq
        exact h q (List.mem_cons_of_mem p hq)
    have htake : p.2.take p.1 = p.2 := by
      rw [← hp.1]
      exact List.take_length p.2
    simp only [List.map_cons, List.flatten_cons, htake]
    rw [lv2_worker_emit_responses]
    have hne : encodeLE32 p.1 ++ p.2 ++ (rest.map (fun q => encodeLE32 q.1 ++ q.2.take q.1)).flatten ≠ [] := by
      simp [encodeLE32]
    rw [dif_neg hne]
    have htk4 : (encodeLE32 p.1 ++ p.2 ++
        (rest.map (fun q => encodeLE32 q.1 ++ q.2.take q.1)).flatten).take 4 = encodeLE32 p.1 := by
      rw [List.append_assoc, ← encodeLE32_length p.1]
      exact List.take_left _ _
    have hdp4 : (encodeLE32 p.1 ++ p.2 ++
        (rest.map (fun q => encodeLE32 q.1 ++ q.2.take q.1)).flatten).drop 4 =
        p.2 ++ (rest.map (fun q => encodeLE32 q.1 ++ q.2.take q.1)).flatten := by
      rw [List.append_assoc, ← encodeLE32_length p.1]
      exact List.drop_left _ _
    simp only [htk4, hdp4, decodeLE32_encodeLE32 p.1 hp.2]
    have htkp : (p.2 ++ (rest.map (fun q => encodeLE32 q.1 ++ q.2.take q.1)).flatten).take p.1
        = p.2 := by
      rw [← hp.1]
      exact List.take_left _ _
    have hdpp : (p.2 ++ (rest.map (fun q => encodeLE32 q.1 ++ q.2.take q.1)).flatten).drop p.1
        = (rest.map (fun q => encodeLE32 q.1 ++ q.2.take q.1)).flatten := by
      rw [← hp.1]
      exact List.drop_left _ _
    simp only [htkp, hdpp]
    rw [ih hrest]

/-- Witness for C6: two responses, of 4 bytes and 2 bytes, pushed in order
onto an empty ring come back out as the same two `work_response` calls in
the same order. -/
theorem claim_C6_witness :
    (∀ p ∈ [((4 : Nat), [1, 2, 3, 4]), ((2 : Nat), ([7, 8] : List Nat))],
        p.2.length = p.1 ∧ p.1 < 2 ^ 32) ∧
    lv2_worker_emit_responses
      ([((4 : Nat), ([1, 2, 3, 4] : List Nat)), (2, [7, 8])].foldl
        (fun ring p => lv2_worker_respond ring p.1 p.2) []) =
      [(4, [1, 2, 3, 4]), (2, [7, 8])] :=
  ⟨by decide, claim_C6_worker_fifo _ (by decide)⟩

/-! ## JsonConfigurator::load_host_config (engine/json_configurator.cpp) -/

/-- `JsonConfigReturnStatus` as used by the configurator. -/
inductive JsonConfigReturnStatus where
  | OK
  | INVALID_CONFIGURATION
  | INVALID_TRACK_NAME
  | INVALID_PLUGIN_PATH
  | INVALID_PARAMETER
  | INVALID_PLUGIN_NAME
  | INVALID_MIDI_PORT
  | INVALID_FILE
  | NO_MIDI_DEFINITIONS
  | NO_EVENTS_DEFINITIONS
  deriving DecidableEq, Repr

/-- `JsonSection` selecting which part of the file is loaded and which
schema validates it. -/
inductive JsonSection where
  | HOST_CONFIG
  | TRACKS
  | MIDI
  | EVENTS
  deriving DecidableEq, Repr

/-- Modelled from the spec: the parsed rapidjson document, reduced to the
observations `_parse_file` and `load_host_config` make of it — membership
of the `midi`/`events` sections, the external schema validator's verdict
per section, and the value of `host_config.samplerate`. -/
structure JsonDoc where
  has_midi : Bool
  has_events : Bool
  schema_valid : JsonSection → Bool
  host_config_samplerate : ℚ

/-- Modelled from the spec: a configuration file as `_parse_file` observes
it: whether the stream opens (`config_file.good()`), and the parse result
(`none` models a rapidjson parse error). -/
structure JsonFile where
  readable : Bool
  parsed : Option JsonDoc

/-- `JsonConfigurator::_parse_file` (json_configurator.cpp:166): missing
file → `INVALID_FILE`; parse error → `INVALID_FILE`; missing `midi` /
`events` member for those sections → `NO_*_DEFINITIONS`; schema violation
→ `INVALID_CONFIGURATION`; otherwise `OK` with the parsed document. -/
def parse_file (f : JsonFile) (sec : JsonSection) :
    JsonConfigReturnStatus × Option JsonDoc :=
  if f.readable = false then (.INVALID_FILE, none)
  else
    match f.parsed with
    | none => (.INVALID_FILE, none)
    | some doc =>
      if sec = .MIDI ∧ doc.has_midi = false then (.NO_MIDI_DEFINITIONS, none)
      else if sec = .EVENTS ∧ doc.has_events = false then (.NO_EVENTS_DEFINITIONS, none)
      else if doc.schema_valid sec = false then (.INVALID_CONFIGURATION, none)
      else (.OK, some doc)

/-- `JsonConfigurator::load_host_config` (json_configurator.cpp:18), with
the engine reduced to its sample rate: on a non-`OK` parse status the
status is returned and the engine sample rate is left unchanged; otherwise
the engine sample rate is set to `host_config.samplerate` and `OK` is
returned. -/
def load_host_config (f : JsonFile) (engine_sample_rate : ℚ) :
    JsonConfigReturnStatus × ℚ :=
  match parse_file f .HOST_CONFIG with
  | (.OK, some doc) => (.OK, doc.host_config_samplerate)
  | (st, _) => (st, engine_sample_rate)

/-- **C7.** `load_host_config` returns `OK` and sets the engine sample rate
to the file's `host_config.samplerate` exactly when the file opens, parses
and validates against the host-config schema; an unreadable file and a
parse error return `INVALID_FILE`, a schema violation returns
`INVALID_CONFIGURATION`, and in every failing case the engine sample rate
is unchanged; both failure statuses differ from `OK`. -/
theorem claim_C7_load_host_config (f : JsonFile) (sr : ℚ) :
    (∀ doc, f.readable = true → f.parsed = some doc →
      doc.schema_valid .HOST_CONFIG = true →
      load_host_config f sr = (.OK, doc.host_config_samplerate)) ∧
    (f.readable = false → load_host_config f sr = (.INVALID_FILE, sr)) ∧
    (f.readable = true → f.parsed = none → load_host_config f sr = (.INVALID_FILE, sr)) ∧
    (∀ doc, f.readable = true → f.parsed = some doc →
      doc.schema_valid .HOST_CONFIG = false →
      load_host_config f sr = (.INVALID_CONFIGURATION, sr)) ∧
    (JsonConfigReturnStatus.INVALID_FILE ≠ .OK ∧
      JsonConfigReturnStatus.INVALID_CONFIGURATION ≠ .OK) := by
  obtain ⟨r, p⟩ := f
  refine ⟨?_, ?_, ?_, ?_, by decide, by decide⟩
  · intro doc hr hp hs
    subst hr
    subst hp
    simp [load_host_config, parse_file, hs]
  · intro hr
    subst hr
    rfl
  · intro hr hp
    subst hr
    subst hp
    rfl
  · intro doc hr hp hs
    subst hr
    subst hp
    simp [load_host_config, parse_file, hs]

/-- Witness for C7: the spec's scenario 1 — a readable file that parses
and validates, with `host_config.samplerate = 48000`, yields `OK` and an
engine sample rate of 48000; an unreadable file leaves a sample rate of
44100 unchanged. -/
theorem claim_C7_witness :
    load_host_config ⟨true, some ⟨false, false, fun _ => true, 48000⟩⟩ 44100 =
      (.OK, 48000) ∧
    load_host_config ⟨false, none⟩ 44100 = (.INVALID_FILE, 44100) :=
  ⟨(claim_C7_load_host_config ⟨true, some ⟨false, false, fun _ => true, 48000⟩⟩ 44100).1
      ⟨false, false, fun _ => true, 48000⟩ rfl rfl rfl,
   (claim_C7_load_host_config ⟨false, none⟩ 44100).2.1 rfl⟩

/-! ## MonoSummingPlugin::process_audio (plugins/mono_summing_plugin.cpp) -/

/-- Modelled from the spec: the fixed-block planar sample buffer — channel
`c` is a contiguous array of samples. -/
structure ChunkSampleBuffer where
  channels : List (List ℚ)
  deriving DecidableEq, Repr

/-- Modelled from the spec: `SampleBuffer::channel(c)`. -/
def ChunkSampleBuffer.channel (b : ChunkSampleBuffer) (c : Nat) : List ℚ :=
  b.channels.getD c []

/-- `SampleBuffer::channel_count()`. -/
def ChunkSampleBuffer.channel_count (b : ChunkSampleBuffer) : Nat :=
  b.channels.length

/-- Modelled from the spec: `SampleBuffer::replace(dst_channel, src_channel,
src_buffer)` overwrites the destination channel with the source buffer's
channel. -/
def ChunkSampleBuffer.replace (dst : ChunkSampleBuffer) (dst_ch src_ch : Nat)
    (src : ChunkSampleBuffer) : ChunkSampleBuffer :=
  ⟨dst.channels.set dst_ch (src.channel src_ch)⟩

/-- Modelled from the spec: `SampleBuffer::add(dst_channel, src_channel,
src_buffer)` adds the source buffer's channel into the destination channel
sample-wise. -/
def ChunkSampleBuffer.add (dst : ChunkSampleBuffer) (dst_ch src_ch : Nat)
    (src : ChunkSampleBuffer) : ChunkSampleBuffer :=
  ⟨dst.channels.set dst_ch
    (List.zipWith (· + ·) (dst.channel dst_ch) (src.channel src_ch))⟩

/-- The sample-wise sum of all of a buffer's channels. -/
def sum_channel (src : ChunkSampleBuffer) : List ℚ :=
  match src.channels with
  | [] => []
  | c :: rest => rest.foldl (fun acc ch => List.zipWith (· + ·) acc ch) c

/-- Modelled from the spec: `Processor::bypass_process`, the deterministic
bypass mapping — identity for equal channel counts, sum/spread for
mismatched counts. -/
def bypass_process (in_buffer out_buffer : ChunkSampleBuffer) : ChunkSampleBuffer :=
  if in_buffer.channel_count = out_buffer.channel_count then ⟨in_buffer.channels⟩
  else ⟨List.replicate out_buffer.channel_count (sum_channel in_buffer)⟩

/-- `MonoSummingPlugin::process_audio` (mono_summing_plugin.cpp:41): when
not bypassed, every output channel is first `replace`d from input channel 0
and then each further input channel is `add`ed into it; when bypassed, the
bypass mapping is applied. -/
def mono_summing_process_audio (bypassed : Bool)
    (in_buffer out_buffer : ChunkSampleBuffer) : ChunkSampleBuffer :=
  if bypassed = false then
    (List.range out_buffer.channel_count).foldl
      (fun ob output_channel =>
        (List.range' 1 (in_buffer.channel_count - 1)).foldl
          (fun ob2 input_channel => ob2.add output_channel input_channel in_buffer)
          (ob.replace output_channel 0 in_buffer))
      out_buffer
  else
    bypass_process in_buffer out_buffer

/-- The per-output-channel value the summing loop computes: input channel 0
plus all further input channels, sample-wise. -/
def sum_fold (in_buffer : ChunkSampleBuffer) : List ℚ :=
  (List.range' 1 (in_buffer.channel_count - 1)).foldl
    (fun acc ic => List.zipWith (· + ·) acc (in_buffer.channel ic))
    (in_buffer.channel 0)

theorem list_set_getD (l : List (List ℚ)) (n : Nat) : l.set n (l.getD n []) = l := by
  induction l generalizing n with
  | nil => rfl
  | cons a t ih =>
    cases n with
    | zero => simp
    | succ m =>
      show a :: t.set m (t.getD m []) = a :: t
      rw [ih m]

theorem channel_set_self (l : List (List ℚ)) (n : Nat) (v : List ℚ) (h : n < l.length) :
    (ChunkSampleBuffer.mk (l.set n v)).channel n = v := by
  simp [ChunkSampleBuffer.channel, List.getElem?_set_self h]

theorem channel_set_ne (l : List (List ℚ)) (n m : Nat) (v : List ℚ) (h : n ≠ m) :
    (ChunkSampleBuffer.mk (l.set n v)).channel m = (ChunkSampleBuffer.mk l).channel m := by
  simp [ChunkSampleBuffer.channel, List.getElem?_set_ne h]

theorem add_fold_channels (in_buffer : ChunkSampleBuffer) (oc : Nat) :
    ∀ (ics : List Nat) (b : ChunkSampleBuffer), oc < b.channels.length →
      (ics.foldl (fun b2 ic => b2.add oc ic in_buffer) b).channels =
        b.channels.set oc
          (ics.foldl (fun acc ic => List.zipWith (· + ·) acc (in_buffer.channel ic))
            (b.channel oc)) := by
  intro ics
  induction ics with
  | nil =>
    intro b hb
    simp only [List.foldl_nil]
    exact (list_set_getD b.channels oc).symm
  | cons ic rest ih =>
    intro b hb
    simp only [List.foldl_cons]
    have hlen : (b.add oc ic in_buffer).channels.length = b.channels.length := by
      simp [ChunkSampleBuffer.add]
    rw [ih (b.add oc ic in_buffer) (by rw [hlen]; exact hb)]
    have hch : (b.add oc ic in_buffer).channel oc =
        List.zipWith (· + ·) (b.channel oc) (in_buffer.channel ic) :=
      channel_set_self b.channels oc _ hb
    rw [show (b.add oc ic in_buffer).channels =
        b.channels.set oc (List.zipWith (· + ·) (b.channel oc) (in_buffer.channel ic)) from rfl,
      hch, List.set_set]

theorem step_channels (in_buffer b : ChunkSampleBuffer) (oc : Nat)
    (hb : oc < b.channels.length) :
    ((List.range' 1 (in_buffer.channel_count - 1)).foldl
      (fun ob2 input_channel => ob2.add oc input_channel in_buffer)
      (b.replace oc 0 in_buffer)).channels =
      b.channels.set oc (sum_fold in_buffer) := by
  have hlen : (b.replace oc 0 in_buffer).channels.length = b.channels.length := by
    simp [ChunkSampleBuffer.replace]
  rw [add_fold_channels in_buffer oc _ (b.replace oc 0 in_buffer) (by rw [hlen]; exact hb)]
  have hch : (b.replace oc 0 in_buffer).channel oc = in_buffer.channel 0 :=
    channel_set_self b.channels oc _ hb
  rw [show (b.replace oc 0 in_buffer).channels =
      b.channels.set oc (in_buffer.channel 0) from rfl, hch, List.set_set]
  rfl

theorem outer_fold_channel (in_buffer : ChunkSampleBuffer) :
    ∀ (ocs : List Nat) (b : ChunkSampleBuffer) (oc2 : Nat), oc2 < b.channels.length →
      (∀ oc ∈ ocs, oc < b.channels.length) →
      ((ocs.foldl
        (fun ob output_channel =>
          (List.range' 1 (in_buffer.channel_count - 1)).foldl
            (fun ob2 input_channel => ob2.add output_channel input_channel in_buffer)
            (ob.replace output_channel 0 in_buffer))
        b).channel oc2) =
        if oc2 ∈ ocs then sum_fold in_buffer else b.channel oc2 := by
  intro ocs
  induction ocs with
  | nil =>
    intro b oc2 h1 h2
    simp
  | cons oc rest ih =>
    intro b oc2 h1 h2
    simp only [List.foldl_cons]
    have hoc : oc < b.channels.length := h2 oc (List.mem_cons_self oc rest)
    have hstep := step_channels in_buffer b oc hoc
    have hlen : ((List.range' 1 (in_buffer.channel_count - 1)).foldl
        (fun ob2 input_channel => ob2.add oc input_channel in_buffer)
        (b.replace oc 0 in_buffer)).channels.length = b.channels.length := by
      rw [hstep]
      simp
    rw [ih _ oc2 (by rw [hlen]; exact h1) (fun x hx => by rw [hlen]; exact h2 x (List.mem_cons_of_mem oc hx))]
    by_cases hmem : oc2 ∈ rest
    · simp [hmem]
    · by_cases heq : oc2 = oc
      · subst heq
        have : ((List.range' 1 (in_buffer.channel_count - 1)).foldl
            (fun ob2 input_channel => ob2.add oc2 input_channel in_buffer)
            (b.replace oc2 0 in_buffer)).channel oc2 = sum_fold in_buffer := by
          have := channel_set_self b.channels oc2 (sum_fold in_buffer) hoc
          rw [show ((List.range' 1 (in_buffer.channel_count - 1)).foldl
              (fun ob2 input_channel => ob2.add oc2 input_channel in_buffer)
              (b.replace oc2 0 in_buffer)) =
            ChunkSampleBuffer.mk (b.channels.set oc2 (sum_fold in_buffer)) from
              congrArg ChunkSampleBuffer.mk hstep]
          exact this
        simp [hmem, this]
      · have : ((List.range' 1 (in_buffer.channel_count - 1)).foldl
            (fun ob2 input_channel => ob2.add oc input_channel in_buffer)
            (b.replace oc 0 in_buffer)).channel oc2 = b.channel oc2 := by
          rw [show ((List.range' 1 (in_buffer.channel_count - 1)).foldl
              (fun ob2 input_channel => ob2.add oc input_channel in_buffer)
              (b.replace oc 0 in_buffer)) =
            ChunkSampleBuffer.mk (b.channels.set oc (sum_fold in_buffer)) from
              congrArg ChunkSampleBuffer.mk hstep]
          exact channel_set_ne b.channels oc oc2 _ (fun hc => heq hc.symm)
        simp [hmem, heq, this]

theorem getD_zipWith_add (a c : List ℚ) (s : Nat) (ha : s < a.length) (hc : s < c.length) :
    (List.zipWith (· + ·) a c).getD s 0 = a.getD s 0 + c.getD s 0 := by
  simp [List.getElem?_zipWith, List.getElem?_eq_getElem ha, List.getElem?_eq_getElem hc]

theorem foldl_zipWith_getD (L s : Nat) (hs : s < L) :
    ∀ (chs : List (List ℚ)) (acc : List ℚ), (∀ ch ∈ chs, ch.length = L) → acc.length = L →
      ((chs.foldl (fun a c => List.zipWith (· + ·) a c) acc).getD s 0 =
        acc.getD s 0 + (chs.map (fun c => c.getD s 0)).sum) ∧
      (chs.foldl (fun a c => List.zipWith (· + ·) a c) acc).length = L := by
  intro chs
  induction chs with
  | nil =>
    intro acc _ hl
    simp [hl]
  | cons c rest ih =>
    intro acc h hl
    simp only [List.foldl_cons, List.map_cons, List.sum_cons]
    have hc : c.length = L := h c (List.mem_cons_self c rest)
    have hzl : (List.zipWith (· + ·) acc c).length = L := by
      simp [hl, hc]
    obtain ⟨ih1, ih2⟩ := ih (List.zipWith (· + ·) acc c)
      (fun ch hch => h ch (List.mem_cons_of_mem c hch)) hzl
    refine ⟨?_, ih2⟩
    rw [ih1, getD_zipWith_add acc c s (by omega) (by omega)]
    ring

theorem map_getD_range (l : List (List ℚ)) :
    (List.range l.length).map (fun i => l.getD i []) = l := by
  apply List.ext_getElem
  · simp
  · intro i h1 h2
    simp [List.getElem?_eq_getElem h2]

theorem sum_fold_getD (in_buffer : ChunkSampleBuffer) (L s : Nat)
    (hch : ∀ ch ∈ in_buffer.channels, ch.length = L) (hs : s < L) :
    (sum_fold in_buffer).getD s 0 =
      (in_buffer.channels.map (fun ch => ch.getD s 0)).sum := by
  obtain ⟨chs⟩ := in_buffer
  cases chs with
  | nil => simp [sum_fold, ChunkSampleBuffer.channel_count, ChunkSampleBuffer.channel]
  | cons c rest =>
    have hc : c.length = L := hch c (List.mem_cons_self c rest)
    have hrest : ∀ ch ∈ rest, ch.length = L :=
      fun ch h => hch ch (List.mem_cons_of_mem c h)
    have hcc : (ChunkSampleBuffer.mk (c :: rest)).channel_count - 1 = rest.length := by
      simp [ChunkSampleBuffer.channel_count]
    have hch0 : (ChunkSampleBuffer.mk (c :: rest)).channel 0 = c := rfl
    have hidx : ∀ i : Nat, (ChunkSampleBuffer.mk (c :: rest)).channel (1 + i) = rest.getD i [] := by
      intro i
      simp [ChunkSampleBuffer.channel, Nat.add_comm 1 i]
    rw [sum_fold, hcc, hch0, List.range'_eq_map_range, List.foldl_map]
    simp only [hidx]
    rw [show (List.range rest.length).foldl
        (fun a i => List.zipWith (· + ·) a (rest.getD i [])) c =
        ((List.range rest.length).map (fun i => rest.getD i [])).foldl
          (fun a ch => List.zipWith (· + ·) a ch) c from (List.foldl_map _ _ _ _).symm,
      map_getD_range rest]
    rw [(foldl_zipWith_getD L s hs rest c hrest hc).1]
    simp

/-- **C8.** For every non-bypassed call to `MonoSummingPlugin::process_audio`
with input channels all of length `L`, every output channel `oc` and sample
`s` of the result equal the sum over all input channels of that channel's
sample `s`; when bypassed, the output is the bypass mapping of the input. -/
theorem claim_C8_mono_summing (in_buffer out_buffer : ChunkSampleBuffer)
    (L oc s : Nat)
    (hin : ∀ ch ∈ in_buffer.channels, ch.length = L)
    (hoc : oc < out_buffer.channel_count) (hs : s < L) :
    ((mono_summing_process_audio false in_buffer out_buffer).channel oc).getD s 0 =
      (in_buffer.channels.map (fun ch => ch.getD s 0)).sum ∧
    mono_summing_process_audio true in_buffer out_buffer =
      bypass_process in_buffer out_buffer := by
  constructor
  · have key := outer_fold_channel in_buffer (List.range out_buffer.channel_count)
      out_buffer oc hoc (fun x hx => List.mem_range.mp hx)
    rw [show mono_summing_process_audio false in_buffer out_buffer =
        ((List.range out_buffer.channel_count).foldl
          (fun ob output_channel =>
            (List.range' 1 (in_buffer.channel_count - 1)).foldl
              (fun ob2 input_channel => ob2.add output_channel input_channel in_buffer)
              (ob.replace output_channel 0 in_buffer))
          out_buffer) from rfl]
    rw [key, if_pos (List.mem_range.mpr hoc)]
    exact sum_fold_getD in_buffer L s hin hs
  · rfl

/-- Witness for C8: summing `[[1, 2], [3, 4]]` into a 2-channel output
yields sample sums `1 + 3` and `2 + 4` on each output channel, and the
bypassed call equals the bypass mapping. -/
theorem claim_C8_witness :
    (∀ ch ∈ (⟨[[1, 2], [3, 4]]⟩ : ChunkSampleBuffer).channels, ch.length = 2) ∧
    0 < (⟨[[0, 0], [0, 0]]⟩ : ChunkSampleBuffer).channel_count ∧ 1 < 2 ∧
    (((mono_summing_process_audio false ⟨[[1, 2], [3, 4]]⟩ ⟨[[0, 0], [0, 0]]⟩).channel 0).getD 1 0 =
      ((⟨[[1, 2], [3, 4]]⟩ : ChunkSampleBuffer).channels.map (fun ch => ch.getD 1 0)).sum ∧
     mono_summing_process_audio true ⟨[[1, 2], [3, 4]]⟩ ⟨[[0, 0], [0, 0]]⟩ =
      bypass_process ⟨[[1, 2], [3, 4]]⟩ ⟨[[0, 0], [0, 0]]⟩) :=
  ⟨by decide, by decide, by decide,
    claim_C8_mono_summing ⟨[[1, 2], [3, 4]]⟩ ⟨[[0, 0], [0, 0]]⟩ 2 0 1
      (by decide) (by decide) (by decide)⟩

/-- **C9.** `clear_connections` empties the CC routing table and the inbound
keyboard routing table but leaves the outbound keyboard table unchanged;
consequently `process` sends exactly the same outbound MIDI after the call
as before it, for every event. -/
theorem claim_C9_clear_preserves_outbound (d : MidiDispatcher) :
    (clear_connections d).cc_routes = [] ∧
    (clear_connections d).kb_routes_in = [] ∧
    (clear_connections d).kb_routes_out = d.kb_routes_out ∧
    (∀ e : Event, process (clear_connections d) e = process d e) := by
  refine ⟨rfl, rfl, rfl, ?_⟩
  intro e
  cases e <;> rfl

/-- **C10.** `MidiDispatcher::process` returns `NOT_HANDLED` for every
event — keyboard events that matched an outbound route and were encoded
and sent included. -/
theorem claim_C10_process_not_handled (d : MidiDispatcher) (e : Event) :
    (process d e).2 = .NOT_HANDLED := by
  cases e with
  | keyboard ke =>
    simp only [process]
    cases d.kb_routes_out.lookup ke.processor_id <;> rfl
  | parameterChange pe => rfl
  | other => rfl

end Sushi
